import Mathlib

/-!
Shallow embedding of the `contributor_registry` Soroban contract
(`src/apps/onchain/contracts/contributor_registry/src/lib.rs`).

The contract stores a single admin address (instance storage), a map from
address to `ContributorData` (persistent storage, `DataKey::Contributor`),
and a reverse index from GitHub handle to address (`DataKey::GitHubIndex`).

Modelling decisions:
* Addresses are `Nat`, handles are `String`, timestamps are `Nat`,
  wasm hashes are `Nat` (all opaque identifiers compared for equality).
* `u64` values are `Nat` together with an explicit bound `≤ U64_MAX`;
  `i64` deltas are `Int` with explicit range hypotheses where they matter.
  `checked_add` / `checked_sub` / `checked_abs` are modelled as the
  corresponding partial functions on `Nat` / `Int`.
* Each public operation is a function from an environment (the auth oracle
  and the ledger timestamp) and a store to a `CallResult` that carries the
  store as left behind by the call: `ok` on success, `err` when the function
  returns `Err(e)` (the carried store shows exactly which writes happened
  before the error), and `trap` when `require_auth` aborts the call.
-/

namespace ContributorRegistry

abbrev Addr := Nat
abbrev Handle := String
abbrev WasmHash := Nat

def U64_MAX : Nat := 2 ^ 64 - 1
def I64_MIN : Int := -(2 ^ 63)

/-- `u64::checked_add` on in-range values. -/
def u64_checked_add (a b : Nat) : Option Nat :=
  if a + b ≤ U64_MAX then some (a + b) else none

/-- `u64::checked_sub`. -/
def u64_checked_sub (a b : Nat) : Option Nat :=
  if b ≤ a then some (a - b) else none

/-- `i64::checked_abs`: `None` exactly on `i64::MIN`. -/
def i64_checked_abs (d : Int) : Option Int :=
  if d = I64_MIN then none else some (d.natAbs : Int)

/-- `storage::ContributorData`: the profile record stored under
`DataKey::Contributor(address)`. -/
structure ContributorData where
  address : Addr
  github_handle : Handle
  reputation_score : Nat
  registered_timestamp : Nat
deriving DecidableEq, Repr

/-- `errors::ContributorError`: the error enum returned by the contract. -/
inductive ContributorError where
  | AlreadyInitialized
  | NotInitialized
  | Unauthorized
  | InvalidGitHubHandle
  | ContributorAlreadyExists
  | ContributorNotFound
  | GitHubHandleTaken
  | ReputationOverflow
deriving DecidableEq, Repr

/-- `events::AdminChangedEvent` and `events::UpgradedEvent`. -/
inductive Event where
  | AdminChangedEvent (old_admin new_admin : Addr)
  | UpgradedEvent (admin : Addr) (new_wasm_hash : WasmHash)
deriving DecidableEq, Repr

/-- The key-value store, split by `DataKey` variant: the `Admin` instance
entry, the `Contributor` map and the `GitHubIndex` map. -/
structure Store where
  admin : Option Addr
  contributors : Addr → Option ContributorData
  githubIndex : Handle → Option Addr

def emptyStore : Store :=
  { admin := none, contributors := fun _ => none, githubIndex := fun _ => none }

/-- The host environment a single call sees: the authorization oracle behind
`require_auth` and the ledger timestamp. -/
structure Env where
  auth : Addr → Bool
  timestamp : Nat

/-- Result of one contract call, carrying the store as left behind by the
call: `ok` for `Ok(())`, `err` for `Err(e)`, `trap` for a `require_auth`
abort. -/
inductive CallResult where
  | ok (s : Store) (events : List Event)
  | err (e : ContributorError) (s : Store)
  | trap (s : Store)

/-- `map.set k v` on a functional map. -/
def mapSet {α β : Type} [DecidableEq α] (m : α → Option β) (k : α) (v : β) :
    α → Option β :=
  fun x => if x = k then some v else m x

/-- `map.remove k` on a functional map. -/
def mapRemove {α β : Type} [DecidableEq α] (m : α → Option β) (k : α) :
    α → Option β :=
  fun x => if x = k then none else m x

/-- `ensure_github_handle_available`: fails with `GitHubHandleTaken` iff the
index has an entry for `github_handle` pointing to a different address. -/
def ensure_github_handle_available (s : Store) (github_handle : Handle)
    (address : Addr) : Except ContributorError Unit :=
  match s.githubIndex github_handle with
  | some existing_address =>
      if existing_address ≠ address then
        Except.error ContributorError.GitHubHandleTaken
      else
        Except.ok ()
  | none => Except.ok ()

/-- The contract's `initialize` entry point (renamed here because the word is
a Lean keyword): set the admin exactly once. -/
def init_contract (env : Env) (s : Store) (admin : Addr) : CallResult :=
  if (s.admin).isSome then
    CallResult.err ContributorError.AlreadyInitialized s
  else if ! env.auth admin then
    CallResult.trap s
  else
    CallResult.ok { s with admin := some admin } []

/-- `register_contributor`: create a new profile for `address` under
`github_handle`. -/
def register_contributor (env : Env) (s : Store) (address : Addr)
    (github_handle : Handle) : CallResult :=
  if ! (s.admin).isSome then
    CallResult.err ContributorError.NotInitialized s
  else if ! env.auth address then
    CallResult.trap s
  else if github_handle.isEmpty then
    CallResult.err ContributorError.InvalidGitHubHandle s
  else if (s.contributors address).isSome then
    CallResult.err ContributorError.ContributorAlreadyExists s
  else
    match ensure_github_handle_available s github_handle address with
    | Except.error e => CallResult.err e s
    | Except.ok _ =>
        let timestamp := env.timestamp
        let contributor : ContributorData :=
          { address := address
            github_handle := github_handle
            reputation_score := 0
            registered_timestamp := timestamp }
        CallResult.ok
          { s with
            contributors := mapSet s.contributors address contributor
            githubIndex := mapSet s.githubIndex github_handle address } []

/-- `update_contributor`: change the handle of an existing profile. -/
def update_contributor (env : Env) (s : Store) (address : Addr)
    (github_handle : Handle) : CallResult :=
  if ! (s.admin).isSome then
    CallResult.err ContributorError.NotInitialized s
  else if ! env.auth address then
    CallResult.trap s
  else if github_handle.isEmpty then
    CallResult.err ContributorError.InvalidGitHubHandle s
  else
    match s.contributors address with
    | none => CallResult.err ContributorError.ContributorNotFound s
    | some contributor =>
        match ensure_github_handle_available s github_handle address with
        | Except.error e => CallResult.err e s
        | Except.ok _ =>
            let idx1 : Handle → Option Addr :=
              if contributor.github_handle ≠ github_handle then
                mapRemove s.githubIndex contributor.github_handle
              else
                s.githubIndex
            let contributor' :=
              { contributor with github_handle := github_handle }
            CallResult.ok
              { s with
                contributors := mapSet s.contributors address contributor'
                githubIndex := mapSet idx1 github_handle address } []

/-- `update_reputation`: admin-gated signed-delta update of the score. -/
def update_reputation (env : Env) (s : Store) (admin : Addr)
    (contributor_address : Addr) (delta : Int) : CallResult :=
  match s.admin with
  | none => CallResult.err ContributorError.NotInitialized s
  | some stored_admin =>
    if admin ≠ stored_admin then
      CallResult.err ContributorError.Unauthorized s
    else if ! env.auth admin then
      CallResult.trap s
    else
      match s.contributors contributor_address with
      | none => CallResult.err ContributorError.ContributorNotFound s
      | some contributor =>
          if delta > 0 then
            match u64_checked_add contributor.reputation_score delta.toNat with
            | none => CallResult.err ContributorError.ReputationOverflow s
            | some new_score =>
                CallResult.ok
                  { s with
                    contributors := mapSet s.contributors contributor_address
                      { contributor with reputation_score := new_score } } []
          else
            let new_delta : Nat :=
              match i64_checked_abs delta with
              | some m => m.toNat
              | none => 0
            let new_score : Nat :=
              match u64_checked_sub contributor.reputation_score new_delta with
              | some v => v
              | none => 0
            CallResult.ok
              { s with
                contributors := mapSet s.contributors contributor_address
                  { contributor with reputation_score := new_score } } []

/-- `get_contributor`: pure read of a profile. -/
def get_contributor (s : Store) (address : Addr) :
    Except ContributorError ContributorData :=
  match s.contributors address with
  | some c => Except.ok c
  | none => Except.error ContributorError.ContributorNotFound

/-- `get_reputation`: pure read of the score. -/
def get_reputation (s : Store) (contributor : Addr) :
    Except ContributorError Nat :=
  match get_contributor s contributor with
  | Except.ok contributor_data => Except.ok contributor_data.reputation_score
  | Except.error e => Except.error e

/-- `get_contributor_by_github`: reverse lookup through the index, then the
primary map. -/
def get_contributor_by_github (s : Store) (github_handle : Handle) :
    Except ContributorError ContributorData :=
  match s.githubIndex github_handle with
  | none => Except.error ContributorError.ContributorNotFound
  | some contributor_address => get_contributor s contributor_address

/-- `get_admin`: pure read of the admin entry. -/
def get_admin (s : Store) : Except ContributorError Addr :=
  match s.admin with
  | none => Except.error ContributorError.NotInitialized
  | some a => Except.ok a

/-- `upgrade`: admin-gated request to swap the contract wasm; the swap itself
is an external effect, recorded only through the emitted event. -/
def upgrade (env : Env) (s : Store) (caller : Addr)
    (new_wasm_hash : WasmHash) : CallResult :=
  match s.admin with
  | none => CallResult.err ContributorError.NotInitialized s
  | some admin =>
    if caller ≠ admin then
      CallResult.err ContributorError.Unauthorized s
    else if ! env.auth caller then
      CallResult.trap s
    else
      CallResult.ok s [Event.UpgradedEvent caller new_wasm_hash]

/-- `set_admin`: admin-gated transfer of the admin role. -/
def set_admin (env : Env) (s : Store) (current_admin : Addr)
    (new_admin : Addr) : CallResult :=
  match s.admin with
  | none => CallResult.err ContributorError.NotInitialized s
  | some stored_admin =>
    if current_admin ≠ stored_admin then
      CallResult.err ContributorError.Unauthorized s
    else if ! env.auth current_admin then
      CallResult.trap s
    else
      CallResult.ok { s with admin := some new_admin }
        [Event.AdminChangedEvent current_admin new_admin]

/-- One public state-mutating entry point together with its arguments. -/
inductive Op where
  | opInit (admin : Addr)
  | opRegister (address : Addr) (github_handle : Handle)
  | opUpdate (address : Addr) (github_handle : Handle)
  | opReputation (admin : Addr) (contributor_address : Addr) (delta : Int)
  | opSetAdmin (current_admin new_admin : Addr)
  | opUpgrade (caller : Addr) (new_wasm_hash : WasmHash)

/-- Dispatch one public call against the store. -/
def step (env : Env) (op : Op) (s : Store) : CallResult :=
  match op with
  | Op.opInit admin => init_contract env s admin
  | Op.opRegister address github_handle =>
      register_contributor env s address github_handle
  | Op.opUpdate address github_handle =>
      update_contributor env s address github_handle
  | Op.opReputation admin contributor_address delta =>
      update_reputation env s admin contributor_address delta
  | Op.opSetAdmin current_admin new_admin =>
      set_admin env s current_admin new_admin
  | Op.opUpgrade caller new_wasm_hash => upgrade env s caller new_wasm_hash

/-- `s'` is reachable from `s` by successful public calls (a failed call
leaves the host state untouched, so only `ok` steps move the state). -/
inductive ReachableFrom : Store → Store → Prop where
  | refl (s : Store) : ReachableFrom s s
  | more (s₁ s₂ s₃ : Store) (env : Env) (op : Op) (events : List Event) :
      ReachableFrom s₁ s₂ → step env op s₂ = CallResult.ok s₃ events →
      ReachableFrom s₁ s₃

/-- Reachable from the empty store. -/
def Reachable (s : Store) : Prop := ReachableFrom emptyStore s

/-! ### Concrete fixtures used by the closed witness theorems -/

/-- An environment whose auth oracle approves every address. -/
def envT : Env := { auth := fun _ => true, timestamp := 7 }

/-- The store right after a successful `initialize` with admin `0`. -/
def storeInit : Store := { emptyStore with admin := some 0 }

/-- The profile stored for address `1` by `register_contributor` under
`envT`. -/
def cAlice : ContributorData :=
  { address := 1, github_handle := "alice", reputation_score := 0,
    registered_timestamp := 7 }

/-- The store after registering address `1` with handle `"alice"`. -/
def storeAlice : Store :=
  { storeInit with
    contributors := mapSet storeInit.contributors 1 cAlice,
    githubIndex := mapSet storeInit.githubIndex "alice" 1 }

/-- The store after updating address `1` from handle `"alice"` to `"bob"`. -/
def storeBob : Store :=
  { storeAlice with
    contributors := mapSet storeAlice.contributors 1
      { cAlice with github_handle := "bob" },
    githubIndex := mapSet (mapRemove storeAlice.githubIndex "alice") "bob" 1 }

/-! ### Basic lemmas about the functional maps -/

@[simp] theorem mapSet_same {α β : Type} [DecidableEq α] (m : α → Option β)
    (k : α) (v : β) : mapSet m k v k = some v := by
  simp [mapSet]

theorem mapSet_other {α β : Type} [DecidableEq α] (m : α → Option β)
    (k x : α) (v : β) (hx : x ≠ k) : mapSet m k v x = m x := by
  simp [mapSet, hx]

@[simp] theorem mapRemove_same {α β : Type} [DecidableEq α]
    (m : α → Option β) (k : α) : mapRemove m k k = none := by
  simp [mapRemove]

theorem mapRemove_other {α β : Type} [DecidableEq α] (m : α → Option β)
    (k x : α) (hx : x ≠ k) : mapRemove m k x = m x := by
  simp [mapRemove, hx]

theorem mapSet_self {α β : Type} [DecidableEq α] (m : α → Option β)
    (k : α) (v : β) (hv : m k = some v) : mapSet m k v = m := by
  funext x
  by_cases hx : x = k
  · subst hx; simp [mapSet, hv]
  · simp [mapSet, hx]

theorem handle_set_self (c : ContributorData) :
    { c with github_handle := c.github_handle } = c := rfl

theorem store_admin_set_self (s : Store) (a : Addr) (ha : s.admin = some a) :
    { s with admin := some a } = s := by
  cases s
  simp_all

/-! ### Characterizing the handle-availability check -/

theorem ensure_ok_iff (s : Store) (h : Handle) (a : Addr) :
    ensure_github_handle_available s h a = Except.ok () ↔
      (s.githubIndex h = none ∨ s.githubIndex h = some a) := by
  unfold ensure_github_handle_available
  cases hidx : s.githubIndex h with
  | none => simp
  | some b =>
    by_cases hb : b = a
    · subst hb; simp
    · simp [hb]

/-! ### Inversion lemmas: what a successful call did to the store -/

theorem init_contract_ok (env : Env) (s : Store) (admin : Addr)
    (s' : Store) (evs : List Event)
    (hok : init_contract env s admin = CallResult.ok s' evs) :
    s.admin = none ∧ env.auth admin = true ∧ evs = [] ∧
      s' = { s with admin := some admin } := by
  unfold init_contract at hok
  split at hok
  · simp at hok
  split at hok
  · simp at hok
  rename_i h1 h2
  simp only [CallResult.ok.injEq] at hok
  refine ⟨?_, ?_, hok.2.symm, hok.1.symm⟩
  · exact Option.not_isSome_iff_eq_none.mp (by simpa using h1)
  · simpa using h2

theorem register_contributor_ok (env : Env) (s : Store) (address : Addr)
    (github_handle : Handle) (s' : Store) (evs : List Event)
    (hok : register_contributor env s address github_handle =
      CallResult.ok s' evs) :
    (s.admin).isSome = true ∧ env.auth address = true ∧
      github_handle.isEmpty = false ∧
      s.contributors address = none ∧
      (s.githubIndex github_handle = none ∨
        s.githubIndex github_handle = some address) ∧
      evs = [] ∧
      s' = { s with
              contributors := mapSet s.contributors address
                { address := address, github_handle := github_handle,
                  reputation_score := 0,
                  registered_timestamp := env.timestamp },
              githubIndex := mapSet s.githubIndex github_handle address } := by
  unfold register_contributor at hok
  split at hok
  · simp at hok
  rename_i h1
  split at hok
  · simp at hok
  rename_i h2
  split at hok
  · simp at hok
  rename_i h3
  split at hok
  · simp at hok
  rename_i h4
  split at hok
  · simp at hok
  rename_i u heq
  simp only [CallResult.ok.injEq] at hok
  refine ⟨Option.ne_none_iff_isSome.mp (by simpa using h1), by simpa using h2,
    by simpa using h3,
    Option.not_isSome_iff_eq_none.mp (by simpa using h4),
    (ensure_ok_iff s github_handle address).mp (by cases u; exact heq),
    hok.2.symm, hok.1.symm⟩

theorem update_contributor_ok (env : Env) (s : Store) (address : Addr)
    (github_handle : Handle) (s' : Store) (evs : List Event)
    (hok : update_contributor env s address github_handle =
      CallResult.ok s' evs) :
    ∃ c, (s.admin).isSome = true ∧ env.auth address = true ∧
      github_handle.isEmpty = false ∧
      s.contributors address = some c ∧
      (s.githubIndex github_handle = none ∨
        s.githubIndex github_handle = some address) ∧
      evs = [] ∧
      s' = { s with
              contributors := mapSet s.contributors address
                { c with github_handle := github_handle },
              githubIndex := mapSet
                (if c.github_handle ≠ github_handle then
                  mapRemove s.githubIndex c.github_handle
                 else s.githubIndex) github_handle address } := by
  unfold update_contributor at hok
  split at hok
  · simp at hok
  rename_i h1
  split at hok
  · simp at hok
  rename_i h2
  split at hok
  · simp at hok
  rename_i h3
  split at hok
  · simp at hok
  rename_i c hc
  split at hok
  · simp at hok
  rename_i u heq
  simp only [CallResult.ok.injEq] at hok
  exact ⟨c, Option.ne_none_iff_isSome.mp (by simpa using h1), by simpa using h2,
    by simpa using h3, hc,
    (ensure_ok_iff s github_handle address).mp (by cases u; exact heq),
    hok.2.symm, hok.1.symm⟩

theorem update_reputation_ok (env : Env) (s : Store) (admin : Addr)
    (target : Addr) (delta : Int) (s' : Store) (evs : List Event)
    (hok : update_reputation env s admin target delta =
      CallResult.ok s' evs) :
    ∃ c n, s.admin = some admin ∧ env.auth admin = true ∧
      s.contributors target = some c ∧ evs = [] ∧
      s' = { s with
              contributors := mapSet s.contributors target
                { c with reputation_score := n } } := by
  unfold update_reputation at hok
  split at hok
  · simp at hok
  rename_i stored_admin hadm
  split at hok
  · simp at hok
  rename_i hne
  split at hok
  · simp at hok
  rename_i hauth
  split at hok
  · simp at hok
  rename_i c hc
  have hadm' : s.admin = some admin := by
    rw [hadm]
    simp only [ne_eq, not_not] at hne
    rw [hne]
  split at hok
  · split at hok
    · simp at hok
    rename_i n hn
    simp only [CallResult.ok.injEq] at hok
    exact ⟨c, n, hadm', by simpa using hauth, hc, hok.2.symm, hok.1.symm⟩
  · simp only [CallResult.ok.injEq] at hok
    exact ⟨c, _, hadm', by simpa using hauth, hc, hok.2.symm, hok.1.symm⟩

theorem set_admin_ok (env : Env) (s : Store) (current_admin new_admin : Addr)
    (s' : Store) (evs : List Event)
    (hok : set_admin env s current_admin new_admin = CallResult.ok s' evs) :
    s.admin = some current_admin ∧ env.auth current_admin = true ∧
      evs = [Event.AdminChangedEvent current_admin new_admin] ∧
      s' = { s with admin := some new_admin } := by
  unfold set_admin at hok
  split at hok
  · simp at hok
  rename_i stored_admin hadm
  split at hok
  · simp at hok
  rename_i hne
  split at hok
  · simp at hok
  rename_i hauth
  simp only [CallResult.ok.injEq] at hok
  simp only [ne_eq, not_not] at hne
  exact ⟨by rw [hadm, hne], by simpa using hauth, hok.2.symm, hok.1.symm⟩

theorem upgrade_ok (env : Env) (s : Store) (caller : Addr)
    (new_wasm_hash : WasmHash) (s' : Store) (evs : List Event)
    (hok : upgrade env s caller new_wasm_hash = CallResult.ok s' evs) :
    s.admin = some caller ∧ env.auth caller = true ∧
      evs = [Event.UpgradedEvent caller new_wasm_hash] ∧ s' = s := by
  unfold upgrade at hok
  split at hok
  · simp at hok
  rename_i stored_admin hadm
  split at hok
  · simp at hok
  rename_i hne
  split at hok
  · simp at hok
  rename_i hauth
  simp only [CallResult.ok.injEq] at hok
  simp only [ne_eq, not_not] at hne
  exact ⟨by rw [hadm, hne], by simpa using hauth, hok.2.symm, hok.1.symm⟩

/-! ### The directory / index consistency invariant -/

/-- Forward consistency: each stored profile's current handle is indexed back
to that profile's address. -/
def IndexForward (s : Store) : Prop :=
  ∀ a c, s.contributors a = some c → s.githubIndex c.github_handle = some a

/-- Backward consistency (no stale entries): every index entry points to a
profile that currently holds exactly that handle. -/
def IndexBackward (s : Store) : Prop :=
  ∀ h a, s.githubIndex h = some a →
    ∃ c, s.contributors a = some c ∧ c.github_handle = h

def Inv (s : Store) : Prop := IndexForward s ∧ IndexBackward s

theorem inv_empty : Inv emptyStore := by
  constructor <;> intro a c hc <;> simp [emptyStore] at hc

theorem inv_init (env : Env) (s : Store) (admin : Addr) (s' : Store)
    (evs : List Event) (hinv : Inv s)
    (hok : init_contract env s admin = CallResult.ok s' evs) : Inv s' := by
  obtain ⟨_, _, _, hs'⟩ := init_contract_ok env s admin s' evs hok
  subst hs'
  exact hinv

theorem inv_set_admin (env : Env) (s : Store) (a b : Addr) (s' : Store)
    (evs : List Event) (hinv : Inv s)
    (hok : set_admin env s a b = CallResult.ok s' evs) : Inv s' := by
  obtain ⟨_, _, _, hs'⟩ := set_admin_ok env s a b s' evs hok
  subst hs'
  exact hinv

theorem inv_upgrade (env : Env) (s : Store) (caller : Addr) (hsh : WasmHash)
    (s' : Store) (evs : List Event) (hinv : Inv s)
    (hok : upgrade env s caller hsh = CallResult.ok s' evs) : Inv s' := by
  obtain ⟨_, _, _, hs'⟩ := upgrade_ok env s caller hsh s' evs hok
  subst hs'
  exact hinv

theorem inv_register (env : Env) (s : Store) (address : Addr)
    (github_handle : Handle) (s' : Store) (evs : List Event) (hinv : Inv s)
    (hok : register_contributor env s address github_handle =
      CallResult.ok s' evs) : Inv s' := by
  obtain ⟨hfwd, hbwd⟩ := hinv
  obtain ⟨_, _, _, hnone, havail, _, hs'⟩ :=
    register_contributor_ok env s address github_handle s' evs hok
  subst hs'
  constructor
  · intro a c hc
    replace hc : mapSet s.contributors address
        { address := address, github_handle := github_handle,
          reputation_score := 0, registered_timestamp := env.timestamp } a =
        some c := hc
    show mapSet s.githubIndex github_handle address c.github_handle = some a
    by_cases ha : a = address
    · subst ha
      rw [mapSet_same] at hc
      injection hc with hc
      subst hc
      exact mapSet_same _ _ _
    · rw [mapSet_other _ _ _ _ ha] at hc
      have hidx := hfwd a c hc
      have hne : c.github_handle ≠ github_handle := by
        intro hEq
        rw [hEq] at hidx
        rcases havail with hv | hv
        · rw [hv] at hidx; cases hidx
        · rw [hv] at hidx
          injection hidx with hidx
          exact ha hidx.symm
      rw [mapSet_other _ _ _ _ hne]
      exact hidx
  · intro h a hidx
    replace hidx : mapSet s.githubIndex github_handle address h = some a :=
      hidx
    show ∃ c, mapSet s.contributors address
        { address := address, github_handle := github_handle,
          reputation_score := 0, registered_timestamp := env.timestamp } a =
        some c ∧ c.github_handle = h
    by_cases hh : h = github_handle
    · subst hh
      rw [mapSet_same] at hidx
      injection hidx with hidx
      subst hidx
      exact ⟨_, mapSet_same _ _ _, rfl⟩
    · rw [mapSet_other _ _ _ _ hh] at hidx
      obtain ⟨c, hc, hch⟩ := hbwd h a hidx
      have ha : a ≠ address := by
        intro hEq
        rw [hEq, hnone] at hc
        cases hc
      exact ⟨c, by rw [mapSet_other _ _ _ _ ha]; exact hc, hch⟩

theorem inv_update (env : Env) (s : Store) (address : Addr)
    (github_handle : Handle) (s' : Store) (evs : List Event) (hinv : Inv s)
    (hok : update_contributor env s address github_handle =
      CallResult.ok s' evs) : Inv s' := by
  obtain ⟨hfwd, hbwd⟩ := hinv
  obtain ⟨c, _, _, _, hc, havail, _, hs'⟩ :=
    update_contributor_ok env s address github_handle s' evs hok
  subst hs'
  constructor
  · intro a c' hc'
    replace hc' : mapSet s.contributors address
        { c with github_handle := github_handle } a = some c' := hc'
    show mapSet (if c.github_handle ≠ github_handle then
        mapRemove s.githubIndex c.github_handle else s.githubIndex)
        github_handle address c'.github_handle = some a
    by_cases ha : a = address
    · subst ha
      rw [mapSet_same] at hc'
      injection hc' with hc'
      subst hc'
      exact mapSet_same _ _ _
    · rw [mapSet_other _ _ _ _ ha] at hc'
      have hidx := hfwd a c' hc'
      have hne : c'.github_handle ≠ github_handle := by
        intro hEq
        rw [hEq] at hidx
        rcases havail with hv | hv
        · rw [hv] at hidx; cases hidx
        · rw [hv] at hidx
          injection hidx with hidx
          exact ha hidx.symm
      rw [mapSet_other _ _ _ _ hne]
      rcases eq_or_ne c.github_handle github_handle with hif | hif
      · rw [if_neg (by simp [hif])]
        exact hidx
      · rw [if_pos hif]
        have hne2 : c'.github_handle ≠ c.github_handle := by
          intro hEq
          have hidxc := hfwd address c hc
          rw [hEq] at hidx
          rw [hidx] at hidxc
          injection hidxc with hidxc
          exact ha hidxc
        rw [mapRemove_other _ _ _ hne2]
        exact hidx
  · intro h' a hidx'
    replace hidx' : mapSet (if c.github_handle ≠ github_handle then
        mapRemove s.githubIndex c.github_handle else s.githubIndex)
        github_handle address h' = some a := hidx'
    show ∃ c2, mapSet s.contributors address
        { c with github_handle := github_handle } a = some c2 ∧
        c2.github_handle = h'
    by_cases hh : h' = github_handle
    · subst hh
      rw [mapSet_same] at hidx'
      injection hidx' with hidx'
      subst hidx'
      exact ⟨_, mapSet_same _ _ _, rfl⟩
    · rw [mapSet_other _ _ _ _ hh] at hidx'
      rcases eq_or_ne c.github_handle github_handle with hif | hif
      · rw [if_neg (by simp [hif])] at hidx'
        obtain ⟨c2, hc2, hch2⟩ := hbwd h' a hidx'
        have ha : a ≠ address := by
          intro hEq
          rw [hEq, hc] at hc2
          injection hc2 with hc2
          rw [← hc2, hif] at hch2
          exact hh hch2.symm
        exact ⟨c2, by rw [mapSet_other _ _ _ _ ha]; exact hc2, hch2⟩
      · rw [if_pos hif] at hidx'
        have hrm : h' ≠ c.github_handle := by
          intro hEq
          rw [hEq, mapRemove_same] at hidx'
          cases hidx'
        rw [mapRemove_other _ _ _ (fun hEq => hrm hEq)] at hidx'
        obtain ⟨c2, hc2, hch2⟩ := hbwd h' a hidx'
        have ha : a ≠ address := by
          intro hEq
          rw [hEq, hc] at hc2
          injection hc2 with hc2
          rw [← hc2] at hch2
          exact hrm hch2.symm
        exact ⟨c2, by rw [mapSet_other _ _ _ _ ha]; exact hc2, hch2⟩

theorem inv_reputation (env : Env) (s : Store) (admin target : Addr)
    (delta : Int) (s' : Store) (evs : List Event) (hinv : Inv s)
    (hok : update_reputation env s admin target delta =
      CallResult.ok s' evs) : Inv s' := by
  obtain ⟨hfwd, hbwd⟩ := hinv
  obtain ⟨c, n, _, _, hc, _, hs'⟩ :=
    update_reputation_ok env s admin target delta s' evs hok
  subst hs'
  constructor
  · intro a c' hc'
    replace hc' : mapSet s.contributors target
        { c with reputation_score := n } a = some c' := hc'
    show s.githubIndex c'.github_handle = some a
    by_cases ha : a = target
    · subst ha
      rw [mapSet_same] at hc'
      injection hc' with hc'
      subst hc'
      exact hfwd _ c hc
    · rw [mapSet_other _ _ _ _ ha] at hc'
      exact hfwd a c' hc'
  · intro h' a hidx
    replace hidx : s.githubIndex h' = some a := hidx
    show ∃ c2, mapSet s.contributors target
        { c with reputation_score := n } a = some c2 ∧ c2.github_handle = h'
    obtain ⟨c2, hc2, hch2⟩ := hbwd h' a hidx
    by_cases ha : a = target
    · subst ha
      rw [hc] at hc2
      injection hc2 with hc2
      refine ⟨{ c with reputation_score := n }, mapSet_same _ _ _, ?_⟩
      rw [← hc2] at hch2
      exact hch2
    · exact ⟨c2, by rw [mapSet_other _ _ _ _ ha]; exact hc2, hch2⟩

theorem inv_step (env : Env) (op : Op) (s s' : Store) (evs : List Event)
    (hinv : Inv s) (hok : step env op s = CallResult.ok s' evs) : Inv s' := by
  cases op with
  | opInit admin => exact inv_init env s admin s' evs hinv hok
  | opRegister address github_handle =>
      exact inv_register env s address github_handle s' evs hinv hok
  | opUpdate address github_handle =>
      exact inv_update env s address github_handle s' evs hinv hok
  | opReputation admin target delta =>
      exact inv_reputation env s admin target delta s' evs hinv hok
  | opSetAdmin a b => exact inv_set_admin env s a b s' evs hinv hok
  | opUpgrade caller hsh => exact inv_upgrade env s caller hsh s' evs hinv hok

theorem reachable_inv (s : Store) (hs : Reachable s) : Inv s := by
  unfold Reachable at hs
  induction hs with
  | refl => exact inv_empty
  | more s₂ s₃ env op events hr hok ih =>
      exact inv_step env op s₂ s₃ events ih hok

theorem step_admin_isSome (env : Env) (op : Op) (s s' : Store)
    (evs : List Event) (hadm : (s.admin).isSome = true)
    (hok : step env op s = CallResult.ok s' evs) :
    (s'.admin).isSome = true := by
  cases op with
  | opInit admin =>
    obtain ⟨_, _, _, hs'⟩ := init_contract_ok env s admin s' evs hok
    subst hs'; rfl
  | opRegister a h =>
    obtain ⟨_, _, _, _, _, _, hs'⟩ :=
      register_contributor_ok env s a h s' evs hok
    subst hs'; exact hadm
  | opUpdate a h =>
    obtain ⟨c, _, _, _, _, _, _, hs'⟩ :=
      update_contributor_ok env s a h s' evs hok
    subst hs'; exact hadm
  | opReputation a t d =>
    obtain ⟨c, n, _, _, _, _, hs'⟩ :=
      update_reputation_ok env s a t d s' evs hok
    subst hs'; exact hadm
  | opSetAdmin a b =>
    obtain ⟨_, _, _, hs'⟩ := set_admin_ok env s a b s' evs hok
    subst hs'; rfl
  | opUpgrade a hsh =>
    obtain ⟨_, _, _, hs'⟩ := upgrade_ok env s a hsh s' evs hok
    subst hs'; exact hadm

theorem ensure_error (s : Store) (h : Handle) (a : Addr) (e : ContributorError)
    (he : ensure_github_handle_available s h a = Except.error e) :
    e = ContributorError.GitHubHandleTaken := by
  unfold ensure_github_handle_available at he
  split at he
  · split at he
    · injection he with he
      exact he.symm
    · cases he
  · cases he

theorem init_contract_err (env : Env) (s : Store) (admin : Addr)
    (hadm : (s.admin).isSome = true) (e : ContributorError) (sE : Store)
    (herr : init_contract env s admin = CallResult.err e sE) :
    e = ContributorError.AlreadyInitialized := by
  unfold init_contract at herr
  rw [hadm] at herr
  simp only [if_pos rfl] at herr
  injection herr with h1 h2
  exact h1.symm

theorem register_contributor_err (env : Env) (s : Store) (address : Addr)
    (github_handle : Handle) (hadm : (s.admin).isSome = true)
    (e : ContributorError) (sE : Store)
    (herr : register_contributor env s address github_handle =
      CallResult.err e sE) :
    e = ContributorError.InvalidGitHubHandle ∨
      e = ContributorError.ContributorAlreadyExists ∨
      e = ContributorError.GitHubHandleTaken := by
  unfold register_contributor at herr
  split at herr
  · rename_i hc1
    rw [hadm] at hc1
    simp at hc1
  split at herr
  · cases herr
  split at herr
  · injection herr with h1 h2
    exact Or.inl h1.symm
  split at herr
  · injection herr with h1 h2
    exact Or.inr (Or.inl h1.symm)
  split at herr
  · rename_i e0 hens
    injection herr with h1 h2
    exact Or.inr (Or.inr (h1 ▸ ensure_error s github_handle address e0 hens))
  · cases herr

theorem update_contributor_err (env : Env) (s : Store) (address : Addr)
    (github_handle : Handle) (hadm : (s.admin).isSome = true)
    (e : ContributorError) (sE : Store)
    (herr : update_contributor env s address github_handle =
      CallResult.err e sE) :
    e = ContributorError.InvalidGitHubHandle ∨
      e = ContributorError.ContributorNotFound ∨
      e = ContributorError.GitHubHandleTaken := by
  unfold update_contributor at herr
  split at herr
  · rename_i hc1
    rw [hadm] at hc1
    simp at hc1
  split at herr
  · cases herr
  split at herr
  · injection herr with h1 h2
    exact Or.inl h1.symm
  split at herr
  · injection herr with h1 h2
    exact Or.inr (Or.inl h1.symm)
  rename_i c hc
  split at herr
  · rename_i e0 hens
    injection herr with h1 h2
    exact Or.inr (Or.inr (h1 ▸ ensure_error s github_handle address e0 hens))
  · cases herr

theorem update_reputation_err (env : Env) (s : Store) (admin target : Addr)
    (delta : Int) (hadm : (s.admin).isSome = true)
    (e : ContributorError) (sE : Store)
    (herr : update_reputation env s admin target delta =
      CallResult.err e sE) :
    e = ContributorError.Unauthorized ∨
      e = ContributorError.ContributorNotFound ∨
      e = ContributorError.ReputationOverflow := by
  unfold update_reputation at herr
  split at herr
  · rename_i hadm0
    rw [hadm0] at hadm
    simp at hadm
  split at herr
  · injection herr with h1 h2
    exact Or.inl h1.symm
  split at herr
  · cases herr
  split at herr
  · injection herr with h1 h2
    exact Or.inr (Or.inl h1.symm)
  split at herr
  · split at herr
    · injection herr with h1 h2
      exact Or.inr (Or.inr h1.symm)
    · cases herr
  · cases herr

theorem set_admin_err (env : Env) (s : Store) (a b : Addr)
    (hadm : (s.admin).isSome = true) (e : ContributorError) (sE : Store)
    (herr : set_admin env s a b = CallResult.err e sE) :
    e = ContributorError.Unauthorized := by
  unfold set_admin at herr
  split at herr
  · rename_i hadm0
    rw [hadm0] at hadm
    simp at hadm
  split at herr
  · injection herr with h1 h2
    exact h1.symm
  split at herr
  · cases herr
  · cases herr

theorem upgrade_err (env : Env) (s : Store) (caller : Addr) (hsh : WasmHash)
    (hadm : (s.admin).isSome = true) (e : ContributorError) (sE : Store)
    (herr : upgrade env s caller hsh = CallResult.err e sE) :
    e = ContributorError.Unauthorized := by
  unfold upgrade at herr
  split at herr
  · rename_i hadm0
    rw [hadm0] at hadm
    simp at hadm
  split at herr
  · injection herr with h1 h2
    exact h1.symm
  split at herr
  · cases herr
  · cases herr

theorem step_no_notinitialized (env : Env) (op : Op) (s : Store)
    (hadm : (s.admin).isSome = true) (e : ContributorError) (sE : Store)
    (herr : step env op s = CallResult.err e sE) :
    e ≠ ContributorError.NotInitialized := by
  cases op with
  | opInit admin =>
    replace herr : init_contract env s admin = CallResult.err e sE := herr
    rw [init_contract_err env s admin hadm e sE herr]
    intro hX; cases hX
  | opRegister a h =>
    replace herr : register_contributor env s a h = CallResult.err e sE :=
      herr
    rcases register_contributor_err env s a h hadm e sE herr with
      h1 | h1 | h1 <;> rw [h1] <;> intro hX <;> cases hX
  | opUpdate a h =>
    replace herr : update_contributor env s a h = CallResult.err e sE := herr
    rcases update_contributor_err env s a h hadm e sE herr with
      h1 | h1 | h1 <;> rw [h1] <;> intro hX <;> cases hX
  | opReputation a t d =>
    replace herr : update_reputation env s a t d = CallResult.err e sE := herr
    rcases update_reputation_err env s a t d hadm e sE herr with
      h1 | h1 | h1 <;> rw [h1] <;> intro hX <;> cases hX
  | opSetAdmin a b =>
    replace herr : set_admin env s a b = CallResult.err e sE := herr
    rw [set_admin_err env s a b hadm e sE herr]
    intro hX; cases hX
  | opUpgrade a hsh =>
    replace herr : upgrade env s a hsh = CallResult.err e sE := herr
    rw [upgrade_err env s a hsh hadm e sE herr]
    intro hX; cases hX

theorem init_contract_err_frame (env : Env) (s : Store) (admin : Addr)
    (e : ContributorError) (sE : Store)
    (herr : init_contract env s admin = CallResult.err e sE) : sE = s := by
  unfold init_contract at herr
  split at herr
  · injection herr with h1 h2
    exact h2.symm
  · split at herr
    · cases herr
    · cases herr

theorem register_contributor_err_frame (env : Env) (s : Store)
    (address : Addr) (github_handle : Handle) (e : ContributorError)
    (sE : Store)
    (herr : register_contributor env s address github_handle =
      CallResult.err e sE) : sE = s := by
  unfold register_contributor at herr
  split at herr
  · injection herr with h1 h2
    exact h2.symm
  split at herr
  · cases herr
  split at herr
  · injection herr with h1 h2
    exact h2.symm
  split at herr
  · injection herr with h1 h2
    exact h2.symm
  split at herr
  · injection herr with h1 h2
    exact h2.symm
  · cases herr

theorem update_contributor_err_frame (env : Env) (s : Store)
    (address : Addr) (github_handle : Handle) (e : ContributorError)
    (sE : Store)
    (herr : update_contributor env s address github_handle =
      CallResult.err e sE) : sE = s := by
  unfold update_contributor at herr
  split at herr
  · injection herr with h1 h2
    exact h2.symm
  split at herr
  · cases herr
  split at herr
  · injection herr with h1 h2
    exact h2.symm
  split at herr
  · injection herr with h1 h2
    exact h2.symm
  split at herr
  · injection herr with h1 h2
    exact h2.symm
  · cases herr

theorem update_reputation_err_frame (env : Env) (s : Store)
    (admin target : Addr) (delta : Int) (e : ContributorError) (sE : Store)
    (herr : update_reputation env s admin target delta =
      CallResult.err e sE) : sE = s := by
  unfold update_reputation at herr
  split at herr
  · injection herr with h1 h2
    exact h2.symm
  split at herr
  · injection herr with h1 h2
    exact h2.symm
  split at herr
  · cases herr
  split at herr
  · injection herr with h1 h2
    exact h2.symm
  split at herr
  · split at herr
    · injection herr with h1 h2
      exact h2.symm
    · cases herr
  · cases herr

theorem set_admin_err_frame (env : Env) (s : Store) (a b : Addr)
    (e : ContributorError) (sE : Store)
    (herr : set_admin env s a b = CallResult.err e sE) : sE = s := by
  unfold set_admin at herr
  split at herr
  · injection herr with h1 h2
    exact h2.symm
  split at herr
  · injection herr with h1 h2
    exact h2.symm
  split at herr
  · cases herr
  · cases herr

theorem upgrade_err_frame (env : Env) (s : Store) (caller : Addr)
    (hsh : WasmHash) (e : ContributorError) (sE : Store)
    (herr : upgrade env s caller hsh = CallResult.err e sE) : sE = s := by
  unfold upgrade at herr
  split at herr
  · injection herr with h1 h2
    exact h2.symm
  split at herr
  · injection herr with h1 h2
    exact h2.symm
  split at herr
  · cases herr
  · cases herr

theorem step_err_state (env : Env) (op : Op) (s : Store)
    (e : ContributorError) (sE : Store)
    (herr : step env op s = CallResult.err e sE) : sE = s := by
  cases op with
  | opInit admin =>
    exact init_contract_err_frame env s admin e sE herr
  | opRegister a h =>
    exact register_contributor_err_frame env s a h e sE herr
  | opUpdate a h =>
    exact update_contributor_err_frame env s a h e sE herr
  | opReputation a t d =>
    exact update_reputation_err_frame env s a t d e sE herr
  | opSetAdmin a b =>
    exact set_admin_err_frame env s a b e sE herr
  | opUpgrade a hsh =>
    exact upgrade_err_frame env s a hsh e sE herr

/-! ### Reachability of the concrete fixtures -/

theorem reachable_storeInit : Reachable storeInit :=
  ReachableFrom.more emptyStore emptyStore storeInit envT (Op.opInit 0) []
    (ReachableFrom.refl emptyStore) rfl

theorem reachable_storeAlice : Reachable storeAlice :=
  ReachableFrom.more emptyStore storeInit storeAlice envT
    (Op.opRegister 1 "alice") [] reachable_storeInit rfl

theorem reachableFrom_init_alice : ReachableFrom storeInit storeAlice :=
  ReachableFrom.more storeInit storeInit storeAlice envT
    (Op.opRegister 1 "alice") [] (ReachableFrom.refl storeInit) rfl

/-! ### Claim theorems -/

/-- C1: in every state reachable from the empty store by the public
operations, at most one profile exists per identity, at most one profile's
`github_handle` equals any given handle, the `GitHubIndex` entry for every
stored profile's current handle exists and maps back to that profile's
address, and no stale index entry survives: every index entry points to a
profile that currently holds exactly that handle. -/
theorem reachable_uniqueness_and_index_consistency (s : Store)
    (hs : Reachable s) :
    (∀ a c₁ c₂, s.contributors a = some c₁ → s.contributors a = some c₂ →
      c₁ = c₂) ∧
    (∀ a₁ a₂ c₁ c₂, s.contributors a₁ = some c₁ →
      s.contributors a₂ = some c₂ →
      c₁.github_handle = c₂.github_handle → a₁ = a₂) ∧
    (∀ a c, s.contributors a = some c →
      s.githubIndex c.github_handle = some a) ∧
    (∀ h a, s.githubIndex h = some a →
      ∃ c, s.contributors a = some c ∧ c.github_handle = h) := by
  obtain ⟨hfwd, hbwd⟩ := reachable_inv s hs
  refine ⟨?_, ?_, hfwd, hbwd⟩
  · intro a c₁ c₂ h1 h2
    rw [h1] at h2
    injection h2 with h2
  · intro a₁ a₂ c₁ c₂ h1 h2 hh
    have i1 := hfwd a₁ c₁ h1
    have i2 := hfwd a₂ c₂ h2
    rw [hh] at i1
    rw [i1] at i2
    injection i2 with i2

theorem reachable_uniqueness_and_index_consistency_witness :
    (∀ a c₁ c₂, storeAlice.contributors a = some c₁ →
      storeAlice.contributors a = some c₂ → c₁ = c₂) ∧
    (∀ a₁ a₂ c₁ c₂, storeAlice.contributors a₁ = some c₁ →
      storeAlice.contributors a₂ = some c₂ →
      c₁.github_handle = c₂.github_handle → a₁ = a₂) ∧
    (∀ a c, storeAlice.contributors a = some c →
      storeAlice.githubIndex c.github_handle = some a) ∧
    (∀ h a, storeAlice.githubIndex h = some a →
      ∃ c, storeAlice.contributors a = some c ∧ c.github_handle = h) :=
  reachable_uniqueness_and_index_consistency storeAlice reachable_storeAlice

/-- C3: every public operation that returns an error leaves the whole stored
state (admin entry, contributor map, `GitHubIndex` map) exactly as it was
before the call. -/
theorem error_leaves_state_unchanged (env : Env) (op : Op) (s : Store)
    (e : ContributorError) (sE : Store)
    (herr : step env op s = CallResult.err e sE) : sE = s :=
  step_err_state env op s e sE herr

theorem error_leaves_state_unchanged_witness :
    step envT (Op.opInit 0) storeInit =
      CallResult.err ContributorError.AlreadyInitialized storeInit ∧
    storeInit = storeInit :=
  ⟨rfl, error_leaves_state_unchanged envT (Op.opInit 0) storeInit
    ContributorError.AlreadyInitialized storeInit rfl⟩

/-- C4: for every initialized state and every caller different from the
stored admin, `update_reputation`, `set_admin` and `upgrade` fail with
`Unauthorized` regardless of their other inputs (even when the target
contributor does not exist), and the carried store is the unchanged input
store. -/
theorem unauthorized_caller_rejected (env : Env) (s : Store) (A caller : Addr)
    (hadm : s.admin = some A) (hne : caller ≠ A) :
    (∀ target d, update_reputation env s caller target d =
      CallResult.err ContributorError.Unauthorized s) ∧
    (∀ b, set_admin env s caller b =
      CallResult.err ContributorError.Unauthorized s) ∧
    (∀ hsh, upgrade env s caller hsh =
      CallResult.err ContributorError.Unauthorized s) := by
  refine ⟨fun target d => ?_, fun b => ?_, fun hsh => ?_⟩ <;>
    simp [update_reputation, set_admin, upgrade, hadm, hne]

theorem unauthorized_caller_rejected_witness :
    update_reputation envT storeInit 5 1 3 =
      CallResult.err ContributorError.Unauthorized storeInit :=
  (unauthorized_caller_rejected envT storeInit 0 5 rfl (by decide)).1 1 3

/-- C7: `get_contributor_by_github` is total: with no index entry it fails
with `ContributorNotFound`, with an index entry pointing to an identity that
has no profile (an index-integrity violation) it also fails with
`ContributorNotFound`, and otherwise it returns the profile. -/
theorem get_contributor_by_github_total (s : Store) (h : Handle) :
    (s.githubIndex h = none →
      get_contributor_by_github s h =
        Except.error ContributorError.ContributorNotFound) ∧
    (∀ a, s.githubIndex h = some a → s.contributors a = none →
      get_contributor_by_github s h =
        Except.error ContributorError.ContributorNotFound) ∧
    (∀ a c, s.githubIndex h = some a → s.contributors a = some c →
      get_contributor_by_github s h = Except.ok c) := by
  refine ⟨?_, ?_, ?_⟩
  · intro hidx
    simp [get_contributor_by_github, hidx]
  · intro a hidx hc
    simp [get_contributor_by_github, get_contributor, hidx, hc]
  · intro a c hidx hc
    simp [get_contributor_by_github, get_contributor, hidx, hc]

theorem get_contributor_by_github_total_witness :
    get_contributor_by_github storeAlice "alice" = Except.ok cAlice ∧
    get_contributor_by_github storeAlice "bob" =
      Except.error ContributorError.ContributorNotFound :=
  ⟨(get_contributor_by_github_total storeAlice "alice").2.2 1 cAlice rfl rfl,
    (get_contributor_by_github_total storeAlice "bob").1 rfl⟩

/-- C10: `set_admin` does not require the new admin to differ from the
current one: with stored admin `A`, `set_admin(A, A)` succeeds, leaves the
store (hence the stored admin) unchanged, and emits an `AdminChangedEvent`
with `old_admin = A` and `new_admin = A`. -/
theorem set_admin_self_transfer (env : Env) (s : Store) (A : Addr)
    (hadm : s.admin = some A) (hauth : env.auth A = true) :
    set_admin env s A A = CallResult.ok s [Event.AdminChangedEvent A A] := by
  simp only [set_admin, hadm, hauth, ne_eq, not_true_eq_false, if_false,
    Bool.not_true, Bool.false_eq_true, ite_false]
  rw [store_admin_set_self s A hadm]

theorem set_admin_self_transfer_witness :
    set_admin envT storeInit 0 0 =
      CallResult.ok storeInit [Event.AdminChangedEvent 0 0] :=
  set_admin_self_transfer envT storeInit 0 rfl rfl

/-- C6: `register_contributor` checks its preconditions in exactly this
order, returning the first failing one's outcome: initialized
(`NotInitialized`), authorization for `address` (abort), handle non-empty
(`InvalidGitHubHandle`), no existing profile (`ContributorAlreadyExists`),
handle not claimed by a different address (`GitHubHandleTaken`); on success
it stores a profile with `reputation_score = 0` and `registered_timestamp`
equal to the ledger timestamp and inserts the index entry
`handle -> address`. -/
theorem register_contributor_check_order (env : Env) (s : Store)
    (address : Addr) (h : Handle) :
    (s.admin = none → register_contributor env s address h =
      CallResult.err ContributorError.NotInitialized s) ∧
    ((s.admin).isSome = true → env.auth address = false →
      register_contributor env s address h = CallResult.trap s) ∧
    ((s.admin).isSome = true → env.auth address = true → h.isEmpty = true →
      register_contributor env s address h =
        CallResult.err ContributorError.InvalidGitHubHandle s) ∧
    (∀ c, (s.admin).isSome = true → env.auth address = true →
      h.isEmpty = false → s.contributors address = some c →
      register_contributor env s address h =
        CallResult.err ContributorError.ContributorAlreadyExists s) ∧
    (∀ b, (s.admin).isSome = true → env.auth address = true →
      h.isEmpty = false → s.contributors address = none →
      s.githubIndex h = some b → b ≠ address →
      register_contributor env s address h =
        CallResult.err ContributorError.GitHubHandleTaken s) ∧
    ((s.admin).isSome = true → env.auth address = true → h.isEmpty = false →
      s.contributors address = none →
      (s.githubIndex h = none ∨ s.githubIndex h = some address) →
      register_contributor env s address h =
        CallResult.ok { s with
          contributors := mapSet s.contributors address
            { address := address, github_handle := h, reputation_score := 0,
              registered_timestamp := env.timestamp },
          githubIndex := mapSet s.githubIndex h address } []) := by
  refine ⟨?_, ?_, ?_, ?_, ?_, ?_⟩
  · intro hadm
    simp [register_contributor, hadm]
  · intro hadm hauth
    simp [register_contributor, hadm, hauth]
  · intro hadm hauth hemp
    simp [register_contributor, hadm, hauth, hemp]
  · intro c hadm hauth hemp hc
    simp [register_contributor, hadm, hauth, hemp, hc]
  · intro b hadm hauth hemp hc hidx hb
    simp [register_contributor, hadm, hauth, hemp, hc,
      ensure_github_handle_available, hidx, hb]
  · intro hadm hauth hemp hc havail
    rcases havail with hidx | hidx <;>
      simp [register_contributor, hadm, hauth, hemp, hc,
        ensure_github_handle_available, hidx]

theorem register_contributor_check_order_witness :
    register_contributor envT storeInit 1 "alice" =
      CallResult.ok { storeInit with
        contributors := mapSet storeInit.contributors 1
          { address := 1, github_handle := "alice", reputation_score := 0,
            registered_timestamp := envT.timestamp },
        githubIndex := mapSet storeInit.githubIndex "alice" 1 } [] :=
  (register_contributor_check_order envT storeInit 1 "alice").2.2.2.2.2
    rfl rfl rfl rfl (Or.inl rfl)

/-- C2: with the stored admin as caller and an existing target holding
score `s`, `update_reputation` with a signed 64-bit delta `d` computes:
for `d > 0` the new score is `s + d` unless that exceeds `u64::MAX`, in
which case the call fails with `ReputationOverflow` and the store is
unchanged; for `d <= 0` the new score is `max(0, s - |d|)` (truncated
subtraction), with `|i64::MIN|` treated as magnitude `0`, and the call
never fails. -/
theorem update_reputation_arithmetic (env : Env) (s : Store)
    (A target : Addr) (c : ContributorData) (d : Int)
    (hadm : s.admin = some A) (hauth : env.auth A = true)
    (hc : s.contributors target = some c)
    (hscore : c.reputation_score ≤ U64_MAX)
    (hlo : I64_MIN ≤ d) (hhi : d < 2 ^ 63) :
    (0 < d → c.reputation_score + d.toNat ≤ U64_MAX →
      update_reputation env s A target d =
        CallResult.ok { s with
          contributors := mapSet s.contributors target
            { c with
              reputation_score := c.reputation_score + d.toNat } } []) ∧
    (0 < d → U64_MAX < c.reputation_score + d.toNat →
      update_reputation env s A target d =
        CallResult.err ContributorError.ReputationOverflow s) ∧
    (d ≤ 0 →
      update_reputation env s A target d =
        CallResult.ok { s with
          contributors := mapSet s.contributors target
            { c with
              reputation_score := c.reputation_score -
                (if d = I64_MIN then 0 else d.natAbs) } } []) := by
  refine ⟨?_, ?_, ?_⟩
  · intro hd hle
    simp [update_reputation, hadm, hauth, hc, hd, u64_checked_add, hle]
  · intro hd hover
    simp [update_reputation, hadm, hauth, hc, hd, u64_checked_add,
      Nat.not_le.mpr hover]
  · intro hd
    have hd' : ¬(d > 0) := not_lt.mpr hd
    have habs2 : (|d|).toNat = d.natAbs := by
      rw [Int.abs_eq_natAbs, Int.toNat_natCast]
    rcases eq_or_ne d I64_MIN with hmin | hmin
    · subst hmin
      have hneg : ¬(I64_MIN > 0) := by decide
      simp [update_reputation, hadm, hauth, hc, hneg, i64_checked_abs,
        u64_checked_sub]
    · rcases le_or_lt d.natAbs c.reputation_score with hle | hlt
      · have hle' : |d| ≤ (c.reputation_score : Int) := by
          rw [Int.abs_eq_natAbs]
          exact_mod_cast hle
        simp [update_reputation, hadm, hauth, hc, hd', i64_checked_abs, hmin,
          u64_checked_sub, hle', habs2, hle]
      · have hz : c.reputation_score - d.natAbs = 0 :=
          Nat.sub_eq_zero_of_le (Nat.le_of_lt hlt)
        have hlt' : ¬(|d| ≤ (c.reputation_score : Int)) := by
          rw [Int.abs_eq_natAbs]
          intro hcon
          exact absurd (by exact_mod_cast hcon) (Nat.not_le.mpr hlt)
        simp [update_reputation, hadm, hauth, hc, hd', i64_checked_abs, hmin,
          u64_checked_sub, hlt', habs2, hz, Nat.not_le.mpr hlt]

theorem update_reputation_arithmetic_witness :
    update_reputation envT storeAlice 0 1 (-3) =
      CallResult.ok { storeAlice with
        contributors := mapSet storeAlice.contributors 1
          { cAlice with
            reputation_score := cAlice.reputation_score -
              (if (-3 : Int) = I64_MIN then 0 else (-3 : Int).natAbs) } }
        [] :=
  (update_reputation_arithmetic envT storeAlice 0 1 cAlice (-3) rfl rfl rfl
    (by decide) (by decide) (by decide)).2.2 (by decide)

/-- C5: in every reachable initialized state where `address` has a profile
whose stored handle is the non-empty `h`, `update_contributor(address, h)`
succeeds and leaves the store unchanged; in particular the index entry for
`h` is not removed (removal happens only when the new handle differs), so
the no-op update is idempotent. -/
theorem noop_update_idempotent (env : Env) (s : Store) (address : Addr)
    (c : ContributorData) (h : Handle) (hs : Reachable s)
    (hauth : env.auth address = true) (hadm : (s.admin).isSome = true)
    (hc : s.contributors address = some c) (hch : c.github_handle = h)
    (hne : h.isEmpty = false) :
    update_contributor env s address h = CallResult.ok s [] := by
  obtain ⟨hfwd, _⟩ := reachable_inv s hs
  have hidx : s.githubIndex h = some address := hch ▸ hfwd address c hc
  have hceq : ({ c with github_handle := h } : ContributorData) = c := by
    rw [← hch]
  simp only [update_contributor, hadm, Bool.not_true, Bool.false_eq_true,
    if_false, hauth, hne, hc, ensure_github_handle_available, hidx, ne_eq,
    not_true_eq_false, ite_false, hch, ite_self]
  rw [hceq, mapSet_self s.contributors address c hc,
    mapSet_self s.githubIndex h address hidx]

theorem noop_update_idempotent_witness :
    update_contributor envT storeAlice 1 "alice" =
      CallResult.ok storeAlice [] :=
  noop_update_idempotent envT storeAlice 1 cAlice "alice"
    reachable_storeAlice rfl rfl rfl rfl rfl

/-- C8: a successful `update_contributor(address, new_handle)` on a
reachable state mutates only the `github_handle` field of that address's
profile and the index entries for its old and new handle: the profile's
`address`, `reputation_score` and `registered_timestamp` are unchanged, the
stored admin is unchanged, every other contributor's profile is unchanged,
and every other contributor's index entry is unchanged. -/
theorem update_contributor_frame (env : Env) (s s' : Store) (address : Addr)
    (h : Handle) (evs : List Event) (hs : Reachable s)
    (hok : update_contributor env s address h = CallResult.ok s' evs) :
    ∃ c, s.contributors address = some c ∧
      s'.contributors address = some
        { address := c.address, github_handle := h,
          reputation_score := c.reputation_score,
          registered_timestamp := c.registered_timestamp } ∧
      s'.admin = s.admin ∧
      (∀ b, b ≠ address → s'.contributors b = s.contributors b) ∧
      (∀ h', h' ≠ c.github_handle → h' ≠ h →
        s'.githubIndex h' = s.githubIndex h') ∧
      (∀ b cb, b ≠ address → s.contributors b = some cb →
        s'.githubIndex cb.github_handle =
          s.githubIndex cb.github_handle) := by
  obtain ⟨hfwd, hbwd⟩ := reachable_inv s hs
  obtain ⟨c, _, _, _, hc, havail, _, hs'⟩ :=
    update_contributor_ok env s address h s' evs hok
  subst hs'
  refine ⟨c, hc, mapSet_same _ _ _, rfl, ?_, ?_, ?_⟩
  · intro b hb
    exact mapSet_other _ _ _ _ hb
  · intro h' h1 h2
    show mapSet (if c.github_handle ≠ h then
      mapRemove s.githubIndex c.github_handle else s.githubIndex)
      h address h' = s.githubIndex h'
    rw [mapSet_other _ _ _ _ h2]
    rcases eq_or_ne c.github_handle h with hif | hif
    · rw [if_neg (by simp [hif])]
    · rw [if_pos hif, mapRemove_other _ _ _ h1]
  · intro b cb hb hcb
    have hidxb := hfwd b cb hcb
    have hneh : cb.github_handle ≠ h := by
      intro hEq
      rw [hEq] at hidxb
      rcases havail with hv | hv
      · rw [hv] at hidxb
        cases hidxb
      · rw [hv] at hidxb
        injection hidxb with hx
        exact hb hx.symm
    have hnec : cb.github_handle ≠ c.github_handle := by
      intro hEq
      have hidxc := hfwd address c hc
      rw [hEq] at hidxb
      rw [hidxc] at hidxb
      injection hidxb with hx
      exact hb hx.symm
    show mapSet (if c.github_handle ≠ h then
      mapRemove s.githubIndex c.github_handle else s.githubIndex)
      h address cb.github_handle = s.githubIndex cb.github_handle
    rw [mapSet_other _ _ _ _ hneh]
    rcases eq_or_ne c.github_handle h with hif | hif
    · rw [if_neg (by simp [hif])]
    · rw [if_pos hif, mapRemove_other _ _ _ hnec]

theorem update_contributor_frame_witness :
    ∃ c, storeAlice.contributors 1 = some c ∧
      storeBob.contributors 1 = some
        { address := c.address, github_handle := "bob",
          reputation_score := c.reputation_score,
          registered_timestamp := c.registered_timestamp } ∧
      storeBob.admin = storeAlice.admin ∧
      (∀ b, b ≠ 1 → storeBob.contributors b = storeAlice.contributors b) ∧
      (∀ h', h' ≠ c.github_handle → h' ≠ "bob" →
        storeBob.githubIndex h' = storeAlice.githubIndex h') ∧
      (∀ b cb, b ≠ 1 → storeAlice.contributors b = some cb →
        storeBob.githubIndex cb.github_handle =
          storeAlice.githubIndex cb.github_handle) :=
  update_contributor_frame envT storeAlice storeBob 1 "bob" []
    reachable_storeAlice rfl

theorem get_contributor_err (s : Store) (a : Addr) (e : ContributorError)
    (he : get_contributor s a = Except.error e) :
    e = ContributorError.ContributorNotFound := by
  unfold get_contributor at he
  split at he
  · cases he
  · injection he with he
    exact he.symm

theorem get_reputation_err (s : Store) (a : Addr) (e : ContributorError)
    (he : get_reputation s a = Except.error e) :
    e = ContributorError.ContributorNotFound := by
  unfold get_reputation at he
  split at he
  · cases he
  · rename_i e0 he0
    injection he with he
    exact he ▸ get_contributor_err s a e0 he0

theorem get_contributor_by_github_err (s : Store) (h : Handle)
    (e : ContributorError)
    (he : get_contributor_by_github s h = Except.error e) :
    e = ContributorError.ContributorNotFound := by
  unfold get_contributor_by_github at he
  split at he
  · injection he with he
    exact he.symm
  · rename_i a ha
    exact get_contributor_err s a e he

/-- C9: once `initialize` has succeeded, the admin entry exists in every
subsequently reachable state (`set_admin` only overwrites it, nothing
deletes it), so no public operation fails with `NotInitialized` any more, a
second `initialize` always fails with `AlreadyInitialized` leaving the
store — hence the stored admin — unchanged, and `get_admin` succeeds. -/
theorem admin_persistence (s s' : Store) (hadm : (s.admin).isSome = true)
    (hr : ReachableFrom s s') :
    (s'.admin).isSome = true ∧
    (∀ env op e sE, step env op s' = CallResult.err e sE →
      e ≠ ContributorError.NotInitialized) ∧
    (∀ env a, step env (Op.opInit a) s' =
      CallResult.err ContributorError.AlreadyInitialized s') ∧
    (∃ a, get_admin s' = Except.ok a) ∧
    (∀ a e, get_contributor s' a = Except.error e →
      e ≠ ContributorError.NotInitialized) ∧
    (∀ a e, get_reputation s' a = Except.error e →
      e ≠ ContributorError.NotInitialized) ∧
    (∀ h e, get_contributor_by_github s' h = Except.error e →
      e ≠ ContributorError.NotInitialized) := by
  have hadm' : (s'.admin).isSome = true := by
    induction hr with
    | refl => exact hadm
    | more s₂ s₃ env op events hr2 hok ih =>
        exact step_admin_isSome env op s₂ s₃ events ih hok
  refine ⟨hadm',
    fun env op e sE herr =>
      step_no_notinitialized env op s' hadm' e sE herr,
    ?_, ?_, ?_, ?_, ?_⟩
  · intro env a
    show init_contract env s' a = _
    unfold init_contract
    rw [hadm', if_pos rfl]
  · rcases Option.isSome_iff_exists.mp hadm' with ⟨a, ha⟩
    exact ⟨a, by simp [get_admin, ha]⟩
  · intro a e he
    rw [get_contributor_err s' a e he]
    intro hX; cases hX
  · intro a e he
    rw [get_reputation_err s' a e he]
    intro hX; cases hX
  · intro h e he
    rw [get_contributor_by_github_err s' h e he]
    intro hX; cases hX

theorem admin_persistence_witness :
    (storeAlice.admin).isSome = true ∧
    (∀ env op e sE, step env op storeAlice = CallResult.err e sE →
      e ≠ ContributorError.NotInitialized) ∧
    (∀ env a, step env (Op.opInit a) storeAlice =
      CallResult.err ContributorError.AlreadyInitialized storeAlice) ∧
    (∃ a, get_admin storeAlice = Except.ok a) ∧
    (∀ a e, get_contributor storeAlice a = Except.error e →
      e ≠ ContributorError.NotInitialized) ∧
    (∀ a e, get_reputation storeAlice a = Except.error e →
      e ≠ ContributorError.NotInitialized) ∧
    (∀ h e, get_contributor_by_github storeAlice h = Except.error e →
      e ≠ ContributorError.NotInitialized) :=
  admin_persistence storeInit storeAlice rfl reachableFrom_init_alice
